import Mathlib

/-!
Verification of the MinexPy-GUI temporary object stores.

This file shallowly embeds the two TTL-based stores of the repository
(`minexpygui/services/dataset_store.py` and
`minexpygui/services/result_store.py`) together with the sweep scheduling of
the application factory (`minexpygui/__init__.py`), and proves the testable
properties stated in the design specification.

Modelling conventions:
* a storage directory is a flat association list from file names to files
  (`Dir`); `Option Dir` distinguishes an absent directory (`none`);
* time (`time.time()` and `st_mtime`) is an integer number of seconds;
* the external pandas serializers (`to_pickle` / `read_pickle`,
  `to_csv` / `read_bytes`) and the JSON sidecar codec (`json.dumps` /
  `json.loads`) are modelled by explicit byte-level codecs that are faithful
  to their success/failure behaviour: encoding always succeeds,
  decoding succeeds exactly on well-formed streams and inverts encoding;
* `uuid.uuid4().hex` is modelled as an explicit identifier argument
  (in Python it is always 32 lowercase hexadecimal digits).
-/

namespace MinexPyGui

/-- A stored file: its byte content and its last-modified time
(`st_mtime`), in integer seconds. -/
structure FSFile where
  content : List Nat
  mtime : Int
  deriving DecidableEq

/-- A flat storage directory: an association list from file names to files. -/
abbrev Dir := List (String × FSFile)

/-- Look a file name up in a directory. -/
def lookupFile : Dir → String → Option FSFile
  | [], _ => none
  | (n, f) :: rest, name => if n = name then some f else lookupFile rest name

/-- Remove every entry with the given name from a directory. Removing an
absent name is the identity. -/
def eraseFile : Dir → String → Dir
  | [], _ => []
  | (n, f) :: rest, name =>
    if n = name then eraseFile rest name else (n, f) :: eraseFile rest name

/-- Model of writing a file: overwrite any existing entry with that name. -/
def insertFile (d : Dir) (name : String) (f : FSFile) : Dir :=
  (name, f) :: eraseFile d name

/-- Error taxonomy of the store layer: `notFound` models
`DatasetNotFoundError` / `ResultNotFoundError` (both subclasses of
`FileNotFoundError`); `fatal` stands for the unmodelled unrecoverable
I/O failures that the store layer never raises itself. -/
inductive StoreError where
  | notFound (msg : String)
  | fatal (msg : String)
  deriving DecidableEq

/-- Model of `Path.unlink(missing_ok)`: removing an absent file raises
`FileNotFoundError` when `missing_ok` is false, and is a no-op otherwise. -/
def unlink (d : Dir) (name : String) (missing_ok : Bool) : Except StoreError Dir :=
  match lookupFile d name with
  | some _ => .ok (eraseFile d name)
  | none =>
    if missing_ok then .ok d else .error (.notFound "FileNotFoundError")

/-- Model of `dataset_store._safe_unlink`: delete a file path without failing
when it is already absent (`unlink(missing_ok=True)`). -/
def _safe_unlink (d : Dir) (name : String) : Except StoreError Dir :=
  unlink d name true

/-- Model of `_is_expired` (textually identical in both store modules): true
exactly when `time.time() - path.stat().st_mtime > ttl_seconds`. -/
def _is_expired (f : FSFile) (ttl_seconds now : Int) : Bool :=
  decide (now - f.mtime > ttl_seconds)

/-- A lowercase hexadecimal digit, the character class `[0-9a-f]`. -/
def isLowerHexChar (c : Char) : Bool :=
  (decide ('0' ≤ c) && decide (c ≤ '9')) || (decide ('a' ≤ c) && decide (c ≤ 'f'))

/-- Model of Python `re.match` against the anchored pattern
`^[0-9a-f]{32}$` (`_DATASET_ID_PATTERN` and `_RESULT_ID_PATTERN`): in Python
the `$` anchor also matches just before a single newline at the end of the
string, so the accepted language is 32 lowercase hexadecimal digits
optionally followed by one trailing newline. -/
def idPatternMatch (s : String) : Bool :=
  let cs := s.data
  (cs.length == 32 && cs.all isLowerHexChar)
    || (cs.length == 33 && (cs.take 32).all isLowerHexChar && cs.drop 32 == ['\n'])

/-- The fixed identifier format as the specification states it: exactly 32
lowercase hexadecimal characters. -/
def is32LowerHex (s : String) : Bool :=
  s.data.length == 32 && s.data.all isLowerHexChar

/-- Modelled external serializer (pandas `DataFrame.to_pickle`): the
DataFrame is taken abstractly as its logical byte content, and the pickle
stream is the pickle protocol marker byte 128 followed by that content. The
marker makes deserialization of arbitrary bytes fallible, as
`pandas.read_pickle` is. -/
def toPickle (df : List Nat) : List Nat := 128 :: df

/-- Modelled external deserializer (pandas `read_pickle`): succeeds exactly
on well-formed pickle streams and inverts `toPickle`. -/
def readPickle (bs : List Nat) : Option (List Nat) :=
  match bs with
  | 128 :: rest => some rest
  | _ => none

/-- Encode a string as its list of character code points. -/
def strBytes (s : String) : List Nat := s.data.map Char.toNat

/-- Modelled `json.dumps` of the metadata sidecar object keyed by
`source_filename`: byte 123 (the opening brace of a JSON object) followed by
the encoded value string. -/
def jsonMetaEncode (source_filename : String) : List Nat :=
  123 :: strBytes source_filename

/-- Modelled `json.loads` followed by `.get("source_filename")`: recovers
the value from a well-formed sidecar stream, and fails on any other bytes. -/
def jsonMetaDecode (bs : List Nat) : Option String :=
  match bs with
  | 123 :: rest => some (String.mk (rest.map Char.ofNat))
  | _ => none

/-- Suffix of the result store's payload files (`RESULT_FILE_SUFFIX`). -/
def RESULT_FILE_SUFFIX : String := ".csv"

/-- Suffix of the dataset store's payload files (`_DATASET_FILE_SUFFIX`). -/
def _DATASET_FILE_SUFFIX : String := ".pkl"

/-- Suffix of the dataset store's metadata sidecars (`_DATASET_META_SUFFIX`). -/
def _DATASET_META_SUFFIX : String := ".json"

/-- Payload file name of a dataset id (`dataset_store._dataset_path`). -/
def _dataset_path (dataset_id : String) : String :=
  dataset_id ++ _DATASET_FILE_SUFFIX

/-- Metadata file name of a dataset id (`dataset_store._meta_path`). -/
def _meta_path (dataset_id : String) : String :=
  dataset_id ++ _DATASET_META_SUFFIX

/-- Payload file name of a result id. -/
def resultPath (result_id : String) : String :=
  result_id ++ RESULT_FILE_SUFFIX

/-- Model of the fnmatch translation of the glob pattern `*<suffix>` used by
both sweeps: any file name directly under the directory whose final
characters are the suffix. -/
def hasSuffix (name suffix : String) : Bool :=
  decide (suffix.data.length ≤ name.data.length)
    && decide (name.data.drop (name.data.length - suffix.data.length) = suffix.data)

/-- Snapshot of `storage_path.glob("*" + suffix)`: the entries of the
directory whose name carries the suffix, in directory order. -/
def globSuffix (d : Dir) (suffix : String) : List (String × FSFile) :=
  d.filter (fun p => hasSuffix p.1 suffix)

/-- Index of the last occurrence of a character in a list, if any. -/
def rfindIdx (c : Char) : List Char → Option Nat
  | [] => none
  | a :: rest =>
    match rfindIdx c rest with
    | some i => some (i + 1)
    | none => if a = c then some 0 else none

/-- Model of `pathlib.PurePath.stem`: the file name with its last suffix
removed; a dot at the very start or the very end of the name does not begin
a suffix. -/
def stem (name : String) : String :=
  let cs := name.data
  match rfindIdx '.' cs with
  | none => name
  | some i => if 0 < i ∧ i + 1 < cs.length then String.mk (cs.take i) else name

/-- Model of `result_store.save_result`. `csv_bytes` stands for the bytes
the external pandas renderer `df.to_csv` writes for the given DataFrame, and
`result_id` for the generated `uuid.uuid4().hex`. -/
def save_result (csv_bytes : List Nat) (dir : Option Dir) (result_id : String)
    (now : Int) : String × Option Dir :=
  let d := dir.getD []
  (result_id, some (insertFile d (resultPath result_id) ⟨csv_bytes, now⟩))

/-- Model of `result_store.load_result_csv`: validate the id, check
existence, enforce the TTL (deleting an expired payload), and return the raw
payload bytes. The returned directory is the post-state. -/
def load_result_csv (result_id : String) (dir : Option Dir)
    (ttl_seconds now : Int) : Except StoreError (List Nat) × Option Dir :=
  if idPatternMatch result_id then
    let d := dir.getD []
    let name := resultPath result_id
    match lookupFile d name with
    | none => (.error (.notFound "Result does not exist."), dir)
    | some f =>
      if _is_expired f ttl_seconds now then
        (.error (.notFound "Result has expired."), some (eraseFile d name))
      else
        (.ok f.content, dir)
  else
    (.error (.notFound "Invalid result identifier."), dir)

/-- Iteration body of `result_store.cleanup_expired`: the glob snapshot is
processed in order; each expired payload is unlinked (missing_ok) and
counted. -/
def cleanupGo (ttl_seconds now : Int) :
    List (String × FSFile) → Dir → Nat → Nat × Dir
  | [], d, count => (count, d)
  | (name, f) :: rest, d, count =>
    if _is_expired f ttl_seconds now then
      cleanupGo ttl_seconds now rest (eraseFile d name) (count + 1)
    else
      cleanupGo ttl_seconds now rest d count

/-- Model of `result_store.cleanup_expired`: sweep the result directory,
deleting expired CSV payloads and returning the deleted count. A missing
directory yields 0. -/
def cleanup_expired (dir : Option Dir) (ttl_seconds now : Int) : Nat × Option Dir :=
  match dir with
  | none => (0, none)
  | some d =>
    let r := cleanupGo ttl_seconds now (globSuffix d RESULT_FILE_SUFFIX) d 0
    (r.1, some r.2)

/-- Model of `dataset_store.save_dataset`: write the pickled payload and the
JSON sidecar under a fresh id. `dataset_id` stands for the generated
`uuid.uuid4().hex`; a falsy (empty) `source_filename` is replaced by
`"uploaded_file"` before encoding, as `source_filename or "uploaded_file"`
does. -/
def save_dataset (df : List Nat) (source_filename : String) (dir : Option Dir)
    (dataset_id : String) (now : Int) : String × Option Dir :=
  let d := dir.getD []
  let d1 := insertFile d (_dataset_path dataset_id) ⟨toPickle df, now⟩
  let meta := jsonMetaEncode (if source_filename = "" then "uploaded_file" else source_filename)
  let d2 := insertFile d1 (_meta_path dataset_id) ⟨meta, now⟩
  (dataset_id, some d2)

/-- Model of `dataset_store.load_dataset`: validate the id, check existence,
enforce the TTL (deleting payload and sidecar of an expired dataset),
deserialize the payload, and read the sidecar with graceful degradation to
the default source filename. The returned directory is the post-state. -/
def load_dataset (dataset_id : String) (dir : Option Dir)
    (ttl_seconds now : Int) : Except StoreError (List Nat × String) × Option Dir :=
  if idPatternMatch dataset_id then
    let d := dir.getD []
    let pName := _dataset_path dataset_id
    let mName := _meta_path dataset_id
    match lookupFile d pName with
    | none => (.error (.notFound "Uploaded dataset was not found."), dir)
    | some f =>
      if _is_expired f ttl_seconds now then
        (.error (.notFound "Uploaded dataset has expired."),
          some (eraseFile (eraseFile d pName) mName))
      else
        match readPickle f.content with
        | none => (.error (.notFound "Uploaded dataset could not be loaded."), dir)
        | some df =>
          let source :=
            match lookupFile d mName with
            | none => "uploaded_file"
            | some mf =>
              match jsonMetaDecode mf.content with
              | none => "uploaded_file"
              | some s => if s = "" then "uploaded_file" else s
          (.ok (df, source), dir)
  else
    (.error (.notFound "Invalid dataset identifier."), dir)

/-- Iteration body of `dataset_store.cleanup_expired_datasets`: each expired
payload of the glob snapshot is unlinked together with the sidecar named
after its stem, and counted. -/
def cleanupDatasetsGo (ttl_seconds now : Int) :
    List (String × FSFile) → Dir → Nat → Nat × Dir
  | [], d, count => (count, d)
  | (name, f) :: rest, d, count =>
    if _is_expired f ttl_seconds now then
      let d1 := eraseFile d name
      let d2 := eraseFile d1 (stem name ++ _DATASET_META_SUFFIX)
      cleanupDatasetsGo ttl_seconds now rest d2 (count + 1)
    else
      cleanupDatasetsGo ttl_seconds now rest d count

/-- Model of `dataset_store.cleanup_expired_datasets`: sweep the dataset
directory, deleting expired pickle payloads and their metadata sidecars, and
return the deleted count. A missing directory yields 0. -/
def cleanup_expired_datasets (dir : Option Dir) (ttl_seconds now : Int) :
    Nat × Option Dir :=
  match dir with
  | none => (0, none)
  | some d =>
    let r := cleanupDatasetsGo ttl_seconds now (globSuffix d _DATASET_FILE_SUFFIX) d 0
    (r.1, some r.2)

/-- Configuration read by `create_app`; both stores share one TTL. -/
structure AppConfig where
  result_ttl_seconds : Int
  cleanup_interval_seconds : Int
  deriving DecidableEq

/-- Process state relevant to sweep scheduling: the process-wide
`app.extensions["last_result_cleanup_at"]` timestamp and both storage
directories. -/
structure AppState where
  last_result_cleanup_at : Int
  resultDir : Option Dir
  datasetDir : Option Dir
  deriving DecidableEq

/-- Model of `create_app`: both stores are swept once at startup and the
last-cleanup timestamp starts at 0.0 (the startup sweep does not record
itself). -/
def create_app (cfg : AppConfig) (resultDir datasetDir : Option Dir)
    (now : Int) : AppState :=
  let r := cleanup_expired resultDir cfg.result_ttl_seconds now
  let d := cleanup_expired_datasets datasetDir cfg.result_ttl_seconds now
  { last_result_cleanup_at := 0, resultDir := r.2, datasetDir := d.2 }

/-- Model of the `before_request` hook `_cleanup_expired_result_files`:
when at least the configured interval has elapsed since the last recorded
run, sweep both stores and record the current time; otherwise do nothing. -/
def _cleanup_expired_result_files (cfg : AppConfig) (s : AppState)
    (now : Int) : AppState :=
  if now - s.last_result_cleanup_at ≥ cfg.cleanup_interval_seconds then
    let r := cleanup_expired s.resultDir cfg.result_ttl_seconds now
    let d := cleanup_expired_datasets s.datasetDir cfg.result_ttl_seconds now
    { last_result_cleanup_at := now, resultDir := r.2, datasetDir := d.2 }
  else
    s

/-- Fold `eraseFile` over a list of names, as the sweep loops do. -/
def eraseMany (d : Dir) (ns : List String) : Dir :=
  ns.foldl eraseFile d

/-- Names of the expired entries of a glob snapshot. -/
def expiredNames (ttl_seconds now : Int) : List (String × FSFile) → List String
  | [] => []
  | (name, f) :: rest =>
    if _is_expired f ttl_seconds now then
      name :: expiredNames ttl_seconds now rest
    else
      expiredNames ttl_seconds now rest

/-- Names deleted by the dataset sweep for a glob snapshot: each expired
payload name followed by its sibling metadata name. -/
def expiredTargets (ttl_seconds now : Int) : List (String × FSFile) → List String
  | [] => []
  | (name, f) :: rest =>
    if _is_expired f ttl_seconds now then
      name :: (stem name ++ _DATASET_META_SUFFIX) :: expiredTargets ttl_seconds now rest
    else
      expiredTargets ttl_seconds now rest

/-- The names the dataset sweep deletes from a directory: expired payload
files (by suffix), and metadata sidecars named after the stem of an expired
payload file. -/
def datasetSweepDeletes (d : Dir) (ttl now : Int) (m : String) : Prop :=
  (∃ f, lookupFile d m = some f ∧ hasSuffix m _DATASET_FILE_SUFFIX = true
      ∧ _is_expired f ttl now = true)
  ∨ (∃ q ∈ d, hasSuffix q.1 _DATASET_FILE_SUFFIX = true
      ∧ _is_expired q.2 ttl now = true ∧ m = stem q.1 ++ _DATASET_META_SUFFIX)

/-! ### Directory lemmas -/

theorem lookupFile_eraseFile (d : Dir) (n m : String) :
    lookupFile (eraseFile d n) m = if m = n then none else lookupFile d m := by
  induction d with
  | nil => by_cases h : m = n <;> simp [eraseFile, lookupFile, h]
  | cons p rest ih =>
    obtain ⟨k, f⟩ := p
    by_cases hk : k = n
    · subst hk
      by_cases hm : m = k
      · subst hm
        simp [eraseFile, lookupFile, ih]
      · simp [eraseFile, lookupFile, hm, Ne.symm hm, ih]
    · by_cases hm : m = n
      · subst hm
        have hkm : ¬ k = m := hk
        simp [eraseFile, lookupFile, hk, hkm, ih]
      · by_cases hkm : k = m
        · subst hkm
          simp [eraseFile, lookupFile, hk, hm, ih]
        · simp [eraseFile, lookupFile, hk, hm, hkm, ih]

theorem lookupFile_insertFile_self (d : Dir) (n : String) (f : FSFile) :
    lookupFile (insertFile d n f) n = some f := by
  simp [insertFile, lookupFile]

theorem lookupFile_insertFile_ne (d : Dir) (n m : String) (f : FSFile)
    (h : m ≠ n) : lookupFile (insertFile d n f) m = lookupFile d m := by
  have hnm : ¬ n = m := fun hh => h hh.symm
  simp [insertFile, lookupFile, hnm, lookupFile_eraseFile, h]

theorem lookupFile_isSome_of_mem (d : Dir) (n : String) (f : FSFile)
    (h : (n, f) ∈ d) : lookupFile d n ≠ none := by
  induction d with
  | nil => simp at h
  | cons p rest ih =>
    obtain ⟨k, g⟩ := p
    rcases List.mem_cons.mp h with h1 | h1
    · obtain ⟨rfl, rfl⟩ : n = k ∧ f = g := by simpa using h1
      simp [lookupFile]
    · by_cases hk : k = n <;> simp [lookupFile, hk, ih h1]

theorem mem_of_lookupFile (d : Dir) (n : String) (f : FSFile)
    (h : lookupFile d n = some f) : (n, f) ∈ d := by
  induction d with
  | nil => simp [lookupFile] at h
  | cons p rest ih =>
    obtain ⟨k, g⟩ := p
    by_cases hk : k = n
    · subst hk
      have h2 : g = f := by simpa [lookupFile] using h
      subst h2
      exact List.mem_cons_self _ _
    · simp only [lookupFile, if_neg hk] at h
      exact List.mem_cons_of_mem _ (ih h)

theorem lookupFile_of_mem_nodup (d : Dir) (n : String) (f : FSFile)
    (hnd : (d.map Prod.fst).Nodup) (h : (n, f) ∈ d) :
    lookupFile d n = some f := by
  induction d with
  | nil => simp at h
  | cons p rest ih =>
    obtain ⟨k, g⟩ := p
    simp only [List.map_cons, List.nodup_cons] at hnd
    rcases List.mem_cons.mp h with h1 | h1
    · obtain ⟨rfl, rfl⟩ : n = k ∧ f = g := by simpa using h1
      simp [lookupFile]
    · have hk : ¬ k = n := by
        intro hkn
        subst hkn
        exact hnd.1 (List.mem_map.mpr ⟨(k, f), h1, rfl⟩)
      simp [lookupFile, hk, ih hnd.2 h1]

theorem eraseMany_nil (d : Dir) : eraseMany d [] = d := rfl

theorem eraseMany_cons (d : Dir) (n : String) (ns : List String) :
    eraseMany d (n :: ns) = eraseMany (eraseFile d n) ns := rfl

theorem lookupFile_eraseMany (ns : List String) (d : Dir) (m : String) :
    lookupFile (eraseMany d ns) m = if m ∈ ns then none else lookupFile d m := by
  induction ns generalizing d with
  | nil => simp [eraseMany_nil]
  | cons n ns ih =>
    rw [eraseMany_cons, ih, lookupFile_eraseFile]
    by_cases h1 : m ∈ ns <;> by_cases h2 : m = n <;> simp [h1, h2]

theorem mem_eraseFile (d : Dir) (n : String) (p : String × FSFile) :
    p ∈ eraseFile d n ↔ p ∈ d ∧ p.1 ≠ n := by
  induction d with
  | nil => simp [eraseFile]
  | cons q rest ih =>
    obtain ⟨k, g⟩ := q
    by_cases hk : k = n
    · subst hk
      have he : eraseFile ((k, g) :: rest) k = eraseFile rest k := by
        simp [eraseFile]
      rw [he, ih]
      constructor
      · rintro ⟨h1, h2⟩
        exact ⟨List.mem_cons_of_mem _ h1, h2⟩
      · rintro ⟨h1, h2⟩
        rcases List.mem_cons.mp h1 with h3 | h3
        · rw [h3] at h2
          exact absurd rfl h2
        · exact ⟨h3, h2⟩
    · have he : eraseFile ((k, g) :: rest) n = (k, g) :: eraseFile rest n := by
        simp [eraseFile, hk]
      rw [he]
      constructor
      · intro h1
        rcases List.mem_cons.mp h1 with h3 | h3
        · rw [h3]
          exact ⟨List.mem_cons_self _ _, hk⟩
        · obtain ⟨h4, h5⟩ := ih.mp h3
          exact ⟨List.mem_cons_of_mem _ h4, h5⟩
      · rintro ⟨h1, h2⟩
        rcases List.mem_cons.mp h1 with h3 | h3
        · rw [h3]
          exact List.mem_cons_self _ _
        · exact List.mem_cons_of_mem _ (ih.mpr ⟨h3, h2⟩)

theorem mem_eraseMany (ns : List String) (d : Dir) (p : String × FSFile) :
    p ∈ eraseMany d ns ↔ p ∈ d ∧ p.1 ∉ ns := by
  induction ns generalizing d with
  | nil => simp [eraseMany_nil]
  | cons n ns ih =>
    rw [eraseMany_cons]
    rw [ih]
    rw [mem_eraseFile]
    constructor
    · rintro ⟨⟨h1, h2⟩, h3⟩
      refine ⟨h1, ?_⟩
      simp [h2, h3]
    · rintro ⟨h1, h2⟩
      simp only [List.mem_cons, not_or] at h2
      exact ⟨⟨h1, h2.1⟩, h2.2⟩

/-! ### Sweep characterization -/

theorem cleanupGo_eq (ttl now : Int) (files : List (String × FSFile))
    (d : Dir) (c : Nat) :
    cleanupGo ttl now files d c =
      (c + (expiredNames ttl now files).length, eraseMany d (expiredNames ttl now files)) := by
  induction files generalizing d c with
  | nil => simp [cleanupGo, expiredNames, eraseMany_nil]
  | cons p rest ih =>
    obtain ⟨name, f⟩ := p
    by_cases he : _is_expired f ttl now
    · simp only [cleanupGo, expiredNames, if_pos he, ih, eraseMany_cons, List.length_cons,
        Prod.mk.injEq]
      exact ⟨by omega, trivial⟩
    · simp [cleanupGo, expiredNames, he, ih]

theorem cleanupDatasetsGo_eq (ttl now : Int) (files : List (String × FSFile))
    (d : Dir) (c : Nat) :
    cleanupDatasetsGo ttl now files d c =
      (c + (expiredNames ttl now files).length,
        eraseMany d (expiredTargets ttl now files)) := by
  induction files generalizing d c with
  | nil => simp [cleanupDatasetsGo, expiredNames, expiredTargets, eraseMany_nil]
  | cons p rest ih =>
    obtain ⟨name, f⟩ := p
    by_cases he : _is_expired f ttl now
    · simp only [cleanupDatasetsGo, expiredNames, expiredTargets, if_pos he, ih,
        eraseMany_cons, List.length_cons, Prod.mk.injEq]
      exact ⟨by omega, trivial⟩
    · simp [cleanupDatasetsGo, expiredNames, expiredTargets, he, ih]

theorem mem_expiredNames (ttl now : Int) (files : List (String × FSFile)) (m : String) :
    m ∈ expiredNames ttl now files ↔
      ∃ f, (m, f) ∈ files ∧ _is_expired f ttl now = true := by
  induction files with
  | nil => simp [expiredNames]
  | cons p rest ih =>
    obtain ⟨name, f⟩ := p
    by_cases he : _is_expired f ttl now <;>
      simp [expiredNames, he, ih, List.mem_cons] <;>
      aesop

theorem mem_expiredTargets (ttl now : Int) (files : List (String × FSFile)) (m : String) :
    m ∈ expiredTargets ttl now files ↔
      (∃ f, (m, f) ∈ files ∧ _is_expired f ttl now = true) ∨
      (∃ q ∈ files, _is_expired q.2 ttl now = true ∧ m = stem q.1 ++ _DATASET_META_SUFFIX) := by
  induction files with
  | nil => simp [expiredTargets]
  | cons p rest ih =>
    obtain ⟨name, f⟩ := p
    by_cases he : _is_expired f ttl now <;>
      simp [expiredTargets, he, ih, List.mem_cons] <;>
      aesop

theorem mem_globSuffix (d : Dir) (suffix : String) (p : String × FSFile) :
    p ∈ globSuffix d suffix ↔ p ∈ d ∧ hasSuffix p.1 suffix = true := by
  simp [globSuffix, List.mem_filter]

/-! ### String lemmas -/

theorem hasSuffix_append (a sfx : String) : hasSuffix (a ++ sfx) sfx = true := by
  simp [hasSuffix, String.data_append, List.length_append, Nat.add_sub_cancel,
    List.drop_left]

theorem hasSuffix_iff (n sfx : String) :
    hasSuffix n sfx = true ↔ ∃ pre : List Char, n.data = pre ++ sfx.data := by
  constructor
  · intro h
    simp only [hasSuffix, Bool.and_eq_true, decide_eq_true_eq] at h
    refine ⟨n.data.take (n.data.length - sfx.data.length), ?_⟩
    conv_lhs => rw [← List.take_append_drop (n.data.length - sfx.data.length) n.data]
    rw [h.2]
  · rintro ⟨pre, hpre⟩
    simp [hasSuffix, hpre, List.length_append, Nat.add_sub_cancel, List.drop_left]

theorem getLast_of_hasSuffix (n sfx : String) (hne : sfx.data ≠ [])
    (h : hasSuffix n sfx = true) : n.data.getLast? = sfx.data.getLast? := by
  obtain ⟨pre, hpre⟩ := (hasSuffix_iff n sfx).mp h
  rw [hpre, List.getLast?_append_of_ne_nil _ hne]

theorem not_hasSuffix_pkl_of_json (n : String)
    (h : hasSuffix n _DATASET_META_SUFFIX = true) :
    hasSuffix n _DATASET_FILE_SUFFIX = false := by
  by_contra hc
  rw [Bool.not_eq_false] at hc
  have h1 := getLast_of_hasSuffix n _DATASET_META_SUFFIX (by decide) h
  have h2 := getLast_of_hasSuffix n _DATASET_FILE_SUFFIX (by decide) hc
  rw [h1] at h2
  revert h2
  decide

theorem rfindIdx_append (c : Char) (xs ys : List Char) :
    rfindIdx c (xs ++ ys) =
      match rfindIdx c ys with
      | some i => some (xs.length + i)
      | none => rfindIdx c xs := by
  induction xs with
  | nil => cases h : rfindIdx c ys <;> simp [rfindIdx, h]
  | cons a xs ih =>
    cases h : rfindIdx c ys with
    | some i =>
      have hx : rfindIdx c (xs ++ ys) = some (xs.length + i) := by rw [ih, h]
      simp only [List.cons_append, rfindIdx, List.append_eq, hx, List.length_cons]
      congr 1
      omega
    | none =>
      have hx : rfindIdx c (xs ++ ys) = rfindIdx c xs := by rw [ih, h]
      simp only [List.cons_append, rfindIdx, List.append_eq, hx]

theorem stem_of_pkl (q : String) (h : hasSuffix q _DATASET_FILE_SUFFIX = true) :
    q = _DATASET_FILE_SUFFIX ∨ q = stem q ++ _DATASET_FILE_SUFFIX := by
  obtain ⟨pre, hpre⟩ := (hasSuffix_iff q _).mp h
  rcases Nat.eq_zero_or_pos pre.length with h0 | h0
  · left
    have hp : pre = [] := List.length_eq_zero.mp h0
    apply String.ext
    rw [hpre, hp, List.nil_append]
  · right
    have hr : rfindIdx '.' q.data = some pre.length := by
      rw [hpre, rfindIdx_append]
      have hc : rfindIdx '.' (_DATASET_FILE_SUFFIX.data) = some 0 := by decide
      rw [hc]
      simp
    have hlen : q.data.length = pre.length + 4 := by
      rw [hpre, List.length_append]
      rfl
    have hcond : 0 < pre.length ∧ pre.length + 1 < q.data.length := by
      constructor
      · exact h0
      · omega
    have hstem : stem q = String.mk pre := by
      simp only [stem, hr]
      rw [if_pos hcond]
      congr 1
      rw [hpre]
      exact List.take_left pre _
    apply String.ext
    rw [hstem, String.data_append, hpre]

theorem stem_eq_of_meta (q dataset_id : String)
    (hq : hasSuffix q _DATASET_FILE_SUFFIX = true)
    (hs : stem q ++ _DATASET_META_SUFFIX = _meta_path dataset_id)
    (hid : is32LowerHex dataset_id = true) : q = _dataset_path dataset_id := by
  have hcancel : stem q = dataset_id := by
    have hd := congrArg String.data hs
    rw [String.data_append, _meta_path, String.data_append] at hd
    exact String.ext (List.append_cancel_right hd)
  rcases stem_of_pkl q hq with h1 | h1
  · exfalso
    have hds : dataset_id = _DATASET_FILE_SUFFIX := by
      rw [← hcancel, h1]
      decide
    rw [hds] at hid
    exact absurd hid (by decide)
  · rw [hcancel] at h1
    exact h1

theorem dataset_path_ne_meta_path (dataset_id : String) :
    _dataset_path dataset_id ≠ _meta_path dataset_id := by
  intro h
  have h2 := congrArg String.length h
  have e1 : _DATASET_FILE_SUFFIX.length = 4 := rfl
  have e2 : _DATASET_META_SUFFIX.length = 5 := rfl
  simp only [_dataset_path, _meta_path, String.length_append, e1, e2] at h2
  omega

theorem map_toNat_ofNat (cs : List Char) :
    (cs.map Char.toNat).map Char.ofNat = cs := by
  induction cs with
  | nil => rfl
  | cons c rest ih => simp [Char.ofNat_toNat, ih]

theorem jsonMetaDecode_encode (s : String) :
    jsonMetaDecode (jsonMetaEncode s) = some s := by
  simp only [jsonMetaDecode, jsonMetaEncode, strBytes, Option.some.injEq]
  apply String.ext
  rw [map_toNat_ofNat]

/-! ### Sweep wrappers -/

theorem cleanup_expired_eq (d : Dir) (ttl now : Int) :
    cleanup_expired (some d) ttl now =
      ((expiredNames ttl now (globSuffix d RESULT_FILE_SUFFIX)).length,
        some (eraseMany d (expiredNames ttl now (globSuffix d RESULT_FILE_SUFFIX)))) := by
  simp [cleanup_expired, cleanupGo_eq]

theorem cleanup_expired_datasets_eq (d : Dir) (ttl now : Int) :
    cleanup_expired_datasets (some d) ttl now =
      ((expiredNames ttl now (globSuffix d _DATASET_FILE_SUFFIX)).length,
        some (eraseMany d (expiredTargets ttl now (globSuffix d _DATASET_FILE_SUFFIX)))) := by
  simp [cleanup_expired_datasets, cleanupDatasetsGo_eq]

theorem expiredNames_eq (ttl now : Int) (files : List (String × FSFile)) :
    expiredNames ttl now files =
      (files.filter (fun p => _is_expired p.2 ttl now)).map Prod.fst := by
  induction files with
  | nil => rfl
  | cons p rest ih =>
    obtain ⟨name, f⟩ := p
    by_cases he : _is_expired f ttl now <;>
      simp [expiredNames, he, ih, List.filter_cons]

theorem expiredNames_glob_length (d : Dir) (sfx : String) (ttl now : Int) :
    (expiredNames ttl now (globSuffix d sfx)).length =
      (d.filter (fun p => hasSuffix p.1 sfx && _is_expired p.2 ttl now)).length := by
  rw [expiredNames_eq, List.length_map, globSuffix, List.filter_filter]
  congr 1
  apply List.filter_congr
  intro a _
  exact Bool.and_comm _ _

/-! ### Small bridging lemmas -/

theorem idPatternMatch_of_is32 (s : String) (h : is32LowerHex s = true) :
    idPatternMatch s = true := by
  simp only [is32LowerHex, Bool.and_eq_true, beq_iff_eq] at h
  simp [idPatternMatch, h.1, h.2]

theorem eraseFile_of_lookup_none (d : Dir) (n : String)
    (h : lookupFile d n = none) : eraseFile d n = d := by
  induction d with
  | nil => rfl
  | cons p rest ih =>
    obtain ⟨k, f⟩ := p
    by_cases hk : k = n
    · subst hk
      simp [lookupFile] at h
    · simp only [lookupFile, if_neg hk] at h
      simp [eraseFile, hk, ih h]

/-! ### Claims -/

/-- Claim C6: for an existing, non-expired dataset whose payload fails to
deserialize, `load_dataset` fails with `NotFound` (not a distinct error
class) and leaves the directory unchanged. -/
theorem claimC6_corrupt_is_notFound (dataset_id : String) (d : Dir) (f : FSFile)
    (ttl now : Int)
    (hp : idPatternMatch dataset_id = true)
    (hl : lookupFile d (_dataset_path dataset_id) = some f)
    (hfresh : _is_expired f ttl now = false)
    (hbad : readPickle f.content = none) :
    (load_dataset dataset_id (some d) ttl now).1
      = .error (.notFound "Uploaded dataset could not be loaded.")
    ∧ (load_dataset dataset_id (some d) ttl now).2 = some d := by
  simp [load_dataset, hp, hl, hfresh, hbad]

/-- Claim C6 witness: a concrete fresh dataset whose payload bytes are not a
well-formed pickle stream is reported as not found. -/
theorem claimC6_corrupt_is_notFound_witness :
    (load_dataset "aaaaaaaaaaaaaaaaaaaaaaaaaaaaaaaa"
        (some [("aaaaaaaaaaaaaaaaaaaaaaaaaaaaaaaa.pkl", ⟨[0, 1], 5⟩)]) 100 10).1
      = .error (.notFound "Uploaded dataset could not be loaded.") :=
  (claimC6_corrupt_is_notFound "aaaaaaaaaaaaaaaaaaaaaaaaaaaaaaaa"
    [("aaaaaaaaaaaaaaaaaaaaaaaaaaaaaaaa.pkl", ⟨[0, 1], 5⟩)] ⟨[0, 1], 5⟩ 100 10
    (by decide) (by decide) (by decide) (by decide)).1

/-- Claim C7 counterexample: a metadata sidecar that exists and parses, but
whose stored source_filename is the empty string, does not get its parsed
value returned: `meta_data.get("source_filename") or source_filename`
substitutes the default for the falsy empty value, so the load succeeds with
`"uploaded_file"` instead of the parsed `""`. -/
theorem claimC7_counterexample :
    jsonMetaDecode ([123] : List Nat) = some ""
    ∧ (load_dataset "aaaaaaaaaaaaaaaaaaaaaaaaaaaaaaaa"
        (some [("aaaaaaaaaaaaaaaaaaaaaaaaaaaaaaaa.pkl", ⟨toPickle [7], 0⟩),
               ("aaaaaaaaaaaaaaaaaaaaaaaaaaaaaaaa.json", ⟨[123], 0⟩)]) 100 0).1
      = .ok ([7], "uploaded_file")
    ∧ ("uploaded_file" : String) ≠ "" := by
  refine ⟨rfl, ?_, by decide⟩
  rfl

/-- Claim C7 (amended): when existence, freshness and deserialization
succeed, the load succeeds regardless of the metadata sidecar: a present
sidecar that parses to a nonempty source filename yields that value, while
an absent or unparseable sidecar — or one that parses to the falsy empty
string — degrades to the default value. -/
theorem claimC7_metadata_degradation (dataset_id : String) (d : Dir) (f : FSFile)
    (df : List Nat) (ttl now : Int)
    (hp : idPatternMatch dataset_id = true)
    (hl : lookupFile d (_dataset_path dataset_id) = some f)
    (hfresh : _is_expired f ttl now = false)
    (hdf : readPickle f.content = some df) :
    (∃ s, (load_dataset dataset_id (some d) ttl now).1 = .ok (df, s))
    ∧ (lookupFile d (_meta_path dataset_id) = none →
        (load_dataset dataset_id (some d) ttl now).1 = .ok (df, "uploaded_file"))
    ∧ (∀ mf, lookupFile d (_meta_path dataset_id) = some mf →
        jsonMetaDecode mf.content = none →
        (load_dataset dataset_id (some d) ttl now).1 = .ok (df, "uploaded_file"))
    ∧ (∀ mf s, lookupFile d (_meta_path dataset_id) = some mf →
        jsonMetaDecode mf.content = some s → s ≠ "" →
        (load_dataset dataset_id (some d) ttl now).1 = .ok (df, s))
    ∧ (∀ mf, lookupFile d (_meta_path dataset_id) = some mf →
        jsonMetaDecode mf.content = some "" →
        (load_dataset dataset_id (some d) ttl now).1 = .ok (df, "uploaded_file")) := by
  refine ⟨?_, ?_, ?_, ?_, ?_⟩
  · cases hm : lookupFile d (_meta_path dataset_id) with
    | none => exact ⟨"uploaded_file", by simp [load_dataset, hp, hl, hfresh, hdf, hm]⟩
    | some mf =>
      cases hj : jsonMetaDecode mf.content with
      | none => exact ⟨"uploaded_file", by simp [load_dataset, hp, hl, hfresh, hdf, hm, hj]⟩
      | some s =>
        by_cases hs : s = ""
        · exact ⟨"uploaded_file", by simp [load_dataset, hp, hl, hfresh, hdf, hm, hj, hs]⟩
        · exact ⟨s, by simp [load_dataset, hp, hl, hfresh, hdf, hm, hj, hs]⟩
  · intro hm
    simp [load_dataset, hp, hl, hfresh, hdf, hm]
  · intro mf hm hj
    simp [load_dataset, hp, hl, hfresh, hdf, hm, hj]
  · intro mf s hm hj hs
    simp [load_dataset, hp, hl, hfresh, hdf, hm, hj, hs]
  · intro mf hm hj
    simp [load_dataset, hp, hl, hfresh, hdf, hm, hj]

/-- Claim C7 witness: loading a concrete fresh dataset with no sidecar succeeds
with the default source filename. -/
theorem claimC7_metadata_degradation_witness :
    (load_dataset "aaaaaaaaaaaaaaaaaaaaaaaaaaaaaaaa"
        (some [("aaaaaaaaaaaaaaaaaaaaaaaaaaaaaaaa.pkl", ⟨toPickle [7], 0⟩)]) 100 10).1
      = .ok ([7], "uploaded_file") :=
  (claimC7_metadata_degradation "aaaaaaaaaaaaaaaaaaaaaaaaaaaaaaaa"
    [("aaaaaaaaaaaaaaaaaaaaaaaaaaaaaaaa.pkl", ⟨toPickle [7], 0⟩)] ⟨toPickle [7], 0⟩
    [7] 100 10 (by decide) (by decide) (by decide) (by decide)).2.1 (by decide)

/-- Claim C8: `_safe_unlink` never raises: it returns the directory with the name
removed, and when the file is already absent it returns the directory
unchanged. -/
theorem claimC8_deletion_tolerance (d : Dir) (name : String) :
    _safe_unlink d name = .ok (eraseFile d name)
    ∧ (lookupFile d name = none → _safe_unlink d name = .ok d) := by
  constructor
  · cases h : lookupFile d name with
    | none => simp [_safe_unlink, unlink, h, eraseFile_of_lookup_none d name h]
    | some f => simp [_safe_unlink, unlink, h]
  · intro h
    simp [_safe_unlink, unlink, h]

/-- Claim C8 witness: unlinking an absent name from a concrete directory is not an
error. -/
theorem claimC8_deletion_tolerance_witness :
    _safe_unlink [("a.pkl", ⟨[], 0⟩)] "b.json" = .ok [("a.pkl", ⟨[], 0⟩)] :=
  (claimC8_deletion_tolerance [("a.pkl", ⟨[], 0⟩)] "b.json").2 (by decide)

/-- Claim C9: both stores are swept once at startup with the recorded timestamp
left at 0; a request-triggered sweep fires exactly when at least the
configured interval has elapsed since the last recorded run, sweeps both
stores on the same trigger and records the time; otherwise nothing changes;
and after a fire, the next fire can only happen at least one interval
later. -/
theorem claimC9_sweep_scheduling (cfg : AppConfig) (rd dd : Option Dir)
    (now0 : Int) (s : AppState) (now : Int) :
    (create_app cfg rd dd now0 =
      { last_result_cleanup_at := 0,
        resultDir := (cleanup_expired rd cfg.result_ttl_seconds now0).2,
        datasetDir := (cleanup_expired_datasets dd cfg.result_ttl_seconds now0).2 })
    ∧ (now - s.last_result_cleanup_at ≥ cfg.cleanup_interval_seconds →
        _cleanup_expired_result_files cfg s now =
          { last_result_cleanup_at := now,
            resultDir := (cleanup_expired s.resultDir cfg.result_ttl_seconds now).2,
            datasetDir := (cleanup_expired_datasets s.datasetDir cfg.result_ttl_seconds now).2 })
    ∧ (now - s.last_result_cleanup_at < cfg.cleanup_interval_seconds →
        _cleanup_expired_result_files cfg s now = s)
    ∧ (now - s.last_result_cleanup_at ≥ cfg.cleanup_interval_seconds →
        ∀ t2 : Int,
          t2 - (_cleanup_expired_result_files cfg s now).last_result_cleanup_at
              ≥ cfg.cleanup_interval_seconds →
          t2 - now ≥ cfg.cleanup_interval_seconds) := by
  refine ⟨rfl, ?_, ?_, ?_⟩
  · intro h
    simp [_cleanup_expired_result_files, h]
  · intro h
    simp [_cleanup_expired_result_files, not_le.mpr h]
  · intro h t2 h2
    simp only [_cleanup_expired_result_files, if_pos h] at h2
    exact h2

/-- Claim C9 witness: with an interval of 300 starting from the initial timestamp
0, a request at time 400 triggers a sweep of both stores and records 400; a
request at time 200 does nothing. -/
theorem claimC9_sweep_scheduling_witness :
    _cleanup_expired_result_files ⟨3600, 300⟩ ⟨0, some [], some []⟩ 400 =
      { last_result_cleanup_at := 400, resultDir := some [], datasetDir := some [] }
    ∧ _cleanup_expired_result_files ⟨3600, 300⟩ ⟨0, some [], some []⟩ 200 =
        ⟨0, some [], some []⟩ := by
  constructor
  · have h := (claimC9_sweep_scheduling ⟨3600, 300⟩ none none 0
      ⟨0, some [], some []⟩ 400).2.1 (by decide)
    rw [h]
    rfl
  · exact (claimC9_sweep_scheduling ⟨3600, 300⟩ none none 0
      ⟨0, some [], some []⟩ 200).2.2.1 (by decide)

/-- Claim C1 counterexample: saving a dataset with an empty source filename and
loading it back immediately succeeds but returns the default
`"uploaded_file"`, not the original (empty) filename, because
`source_filename or "uploaded_file"` replaces falsy filenames at save time. -/
theorem claimC1_counterexample :
    (save_dataset [1, 2] "" (some []) "aaaaaaaaaaaaaaaaaaaaaaaaaaaaaaaa" 0).1
      = "aaaaaaaaaaaaaaaaaaaaaaaaaaaaaaaa"
    ∧ (load_dataset "aaaaaaaaaaaaaaaaaaaaaaaaaaaaaaaa"
        (save_dataset [1, 2] "" (some []) "aaaaaaaaaaaaaaaaaaaaaaaaaaaaaaaa" 0).2 3600 0).1
      = .ok ([1, 2], "uploaded_file")
    ∧ ("uploaded_file" : String) ≠ "" := by
  refine ⟨rfl, ?_, by decide⟩
  rfl

/-- Claim C1 (amended): an immediate load after a save with positive ttl returns
the payload byte-for-byte for both stores, and for datasets the original
source filename whenever it is nonempty (an empty filename is replaced by
the default at save time). -/
theorem claimC1_roundtrip (df csv : List Nat) (source_filename : String)
    (ddir rdir : Option Dir) (dataset_id result_id : String) (ttl now : Int)
    (hdid : is32LowerHex dataset_id = true)
    (hrid : is32LowerHex result_id = true)
    (hsf : source_filename ≠ "")
    (httl : 0 < ttl) :
    load_dataset (save_dataset df source_filename ddir dataset_id now).1
        (save_dataset df source_filename ddir dataset_id now).2 ttl now
      = (.ok (df, source_filename), (save_dataset df source_filename ddir dataset_id now).2)
    ∧ load_result_csv (save_result csv rdir result_id now).1
        (save_result csv rdir result_id now).2 ttl now
      = (.ok csv, (save_result csv rdir result_id now).2) := by
  constructor
  · have hpm := idPatternMatch_of_is32 _ hdid
    have hne := dataset_path_ne_meta_path dataset_id
    have hlkp : ∀ (dd : Dir) (ff : FSFile),
        lookupFile (insertFile dd (_meta_path dataset_id) ff) (_dataset_path dataset_id)
          = lookupFile dd (_dataset_path dataset_id) :=
      fun dd ff => lookupFile_insertFile_ne dd _ _ ff hne
    have hexp : ∀ bs : List Nat, _is_expired ⟨bs, now⟩ ttl now = false := by
      intro bs
      simp only [_is_expired, decide_eq_false_iff_not, not_lt]
      omega
    simp [save_dataset, load_dataset, hpm, hsf, hlkp, lookupFile_insertFile_self,
      hexp, readPickle, toPickle, jsonMetaDecode_encode]
  · have hpm := idPatternMatch_of_is32 _ hrid
    have hexp : _is_expired ⟨csv, now⟩ ttl now = false := by
      simp only [_is_expired, decide_eq_false_iff_not, not_lt]
      omega
    simp [save_result, load_result_csv, hpm, lookupFile_insertFile_self, hexp]

/-- Claim C1 witness: a concrete save/load pair round-trips on both stores. -/
theorem claimC1_roundtrip_witness :
    load_dataset (save_dataset [9] "in.csv" (some []) "aaaaaaaaaaaaaaaaaaaaaaaaaaaaaaaa" 3).1
        (save_dataset [9] "in.csv" (some []) "aaaaaaaaaaaaaaaaaaaaaaaaaaaaaaaa" 3).2 3600 3
      = (.ok ([9], "in.csv"),
          (save_dataset [9] "in.csv" (some []) "aaaaaaaaaaaaaaaaaaaaaaaaaaaaaaaa" 3).2)
    ∧ load_result_csv
          (save_result [4, 5] (some []) "bbbbbbbbbbbbbbbbbbbbbbbbbbbbbbbb" 3).1
          (save_result [4, 5] (some []) "bbbbbbbbbbbbbbbbbbbbbbbbbbbbbbbb" 3).2 3600 3
      = (.ok [4, 5],
          (save_result [4, 5] (some []) "bbbbbbbbbbbbbbbbbbbbbbbbbbbbbbbb" 3).2) :=
  claimC1_roundtrip [9] [4, 5] "in.csv" (some []) (some [])
    "aaaaaaaaaaaaaaaaaaaaaaaaaaaaaaaa" "bbbbbbbbbbbbbbbbbbbbbbbbbbbbbbbb" 3600 3
    (by decide) (by decide) (by decide) (by decide)

/-- Claim C2: TTL boundary and lazy deletion. An existing payload strictly older
than the ttl makes `load` delete the object's files (payload and, for
datasets, metadata) and fail with `NotFound`, and the files are gone
afterwards; an existing payload whose age is at most the ttl passes the
freshness check, so the load succeeds (for datasets, provided the payload
deserializes) and leaves the directory unchanged. -/
theorem claimC2_ttl_boundary (dataset_id result_id : String) (d e : Dir)
    (f g : FSFile) (ttl now : Int)
    (hpd : idPatternMatch dataset_id = true)
    (hpr : idPatternMatch result_id = true) :
    (lookupFile d (_dataset_path dataset_id) = some f → now - f.mtime > ttl →
      (load_dataset dataset_id (some d) ttl now).1
        = .error (.notFound "Uploaded dataset has expired.")
      ∧ (load_dataset dataset_id (some d) ttl now).2
          = some (eraseFile (eraseFile d (_dataset_path dataset_id)) (_meta_path dataset_id))
      ∧ lookupFile (eraseFile (eraseFile d (_dataset_path dataset_id)) (_meta_path dataset_id))
          (_dataset_path dataset_id) = none
      ∧ lookupFile (eraseFile (eraseFile d (_dataset_path dataset_id)) (_meta_path dataset_id))
          (_meta_path dataset_id) = none)
    ∧ (lookupFile d (_dataset_path dataset_id) = some f → now - f.mtime ≤ ttl →
        ∀ df, readPickle f.content = some df →
          ∃ s, load_dataset dataset_id (some d) ttl now = (.ok (df, s), some d))
    ∧ (lookupFile e (resultPath result_id) = some g → now - g.mtime > ttl →
        (load_result_csv result_id (some e) ttl now).1
          = .error (.notFound "Result has expired.")
        ∧ (load_result_csv result_id (some e) ttl now).2
            = some (eraseFile e (resultPath result_id))
        ∧ lookupFile (eraseFile e (resultPath result_id)) (resultPath result_id) = none)
    ∧ (lookupFile e (resultPath result_id) = some g → now - g.mtime ≤ ttl →
        load_result_csv result_id (some e) ttl now = (.ok g.content, some e)) := by
  refine ⟨?_, ?_, ?_, ?_⟩
  · intro hl hage
    have hexp : _is_expired f ttl now = true := by
      simp [_is_expired, hage]
    have hne := dataset_path_ne_meta_path dataset_id
    refine ⟨?_, ?_, ?_, ?_⟩
    · simp [load_dataset, hpd, hl, hexp]
    · simp [load_dataset, hpd, hl, hexp]
    · rw [lookupFile_eraseFile, if_neg hne, lookupFile_eraseFile, if_pos rfl]
    · rw [lookupFile_eraseFile, if_pos rfl]
  · intro hl hage df hdf
    have hexp : _is_expired f ttl now = false := by
      simp only [_is_expired, decide_eq_false_iff_not, not_lt]
      omega
    cases hm : lookupFile d (_meta_path dataset_id) with
    | none => exact ⟨"uploaded_file", by simp [load_dataset, hpd, hl, hexp, hdf, hm]⟩
    | some mf =>
      cases hj : jsonMetaDecode mf.content with
      | none => exact ⟨"uploaded_file", by simp [load_dataset, hpd, hl, hexp, hdf, hm, hj]⟩
      | some s =>
        by_cases hs : s = ""
        · exact ⟨"uploaded_file", by simp [load_dataset, hpd, hl, hexp, hdf, hm, hj, hs]⟩
        · exact ⟨s, by simp [load_dataset, hpd, hl, hexp, hdf, hm, hj, hs]⟩
  · intro hl hage
    have hexp : _is_expired g ttl now = true := by
      simp [_is_expired, hage]
    refine ⟨?_, ?_, ?_⟩
    · simp [load_result_csv, hpr, hl, hexp]
    · simp [load_result_csv, hpr, hl, hexp]
    · rw [lookupFile_eraseFile, if_pos rfl]
  · intro hl hage
    have hexp : _is_expired g ttl now = false := by
      simp only [_is_expired, decide_eq_false_iff_not, not_lt]
      omega
    simp [load_result_csv, hpr, hl, hexp]

/-- Claim C2 witness: with ttl 10, a dataset saved at time 0 is expired at time
100 (files gone afterwards) and a result saved at time 95 is still served at
time 100. -/
theorem claimC2_ttl_boundary_witness :
    (load_dataset "aaaaaaaaaaaaaaaaaaaaaaaaaaaaaaaa"
        (some [("aaaaaaaaaaaaaaaaaaaaaaaaaaaaaaaa.pkl", ⟨toPickle [7], 0⟩),
               ("aaaaaaaaaaaaaaaaaaaaaaaaaaaaaaaa.json", ⟨[123], 0⟩)]) 10 100).1
      = .error (.notFound "Uploaded dataset has expired.")
    ∧ load_result_csv "bbbbbbbbbbbbbbbbbbbbbbbbbbbbbbbb"
        (some [("bbbbbbbbbbbbbbbbbbbbbbbbbbbbbbbb.csv", ⟨[4], 95⟩)]) 10 100
      = (.ok [4], some [("bbbbbbbbbbbbbbbbbbbbbbbbbbbbbbbb.csv", ⟨[4], 95⟩)]) := by
  constructor
  · exact ((claimC2_ttl_boundary "aaaaaaaaaaaaaaaaaaaaaaaaaaaaaaaa"
      "bbbbbbbbbbbbbbbbbbbbbbbbbbbbbbbb"
      [("aaaaaaaaaaaaaaaaaaaaaaaaaaaaaaaa.pkl", ⟨toPickle [7], 0⟩),
       ("aaaaaaaaaaaaaaaaaaaaaaaaaaaaaaaa.json", ⟨[123], 0⟩)] []
      ⟨toPickle [7], 0⟩ ⟨[4], 95⟩ 10 100 (by decide) (by decide)).1
      (by decide) (by decide)).1
  · exact (claimC2_ttl_boundary "aaaaaaaaaaaaaaaaaaaaaaaaaaaaaaaa"
      "bbbbbbbbbbbbbbbbbbbbbbbbbbbbbbbb" []
      [("bbbbbbbbbbbbbbbbbbbbbbbbbbbbbbbb.csv", ⟨[4], 95⟩)]
      ⟨toPickle [7], 0⟩ ⟨[4], 95⟩ 10 100 (by decide) (by decide)).2.2.2
      (by decide) (by decide)

/-- Claim C3 counterexample: the Python anchored pattern also matches 32 hex
digits followed by one trailing newline, so this malformed id (33
characters, not the 32-character lowercase-hex format) is resolved to a path
and its file is actually read: the load returns the stored payload instead
of failing with `NotFound` before filesystem access. -/
theorem claimC3_counterexample :
    is32LowerHex "aaaaaaaaaaaaaaaaaaaaaaaaaaaaaaaa\n" = false
    ∧ (load_dataset "aaaaaaaaaaaaaaaaaaaaaaaaaaaaaaaa\n"
        (some [("aaaaaaaaaaaaaaaaaaaaaaaaaaaaaaaa\n.pkl", ⟨toPickle [7], 0⟩)]) 100 0).1
      = .ok ([7], "uploaded_file") := by
  refine ⟨by decide, ?_⟩
  rfl

/-- Claim C3 (amended): for every id the store's pattern rejects — anything other
than 32 lowercase hex digits optionally followed by one trailing newline —
both loads fail with `NotFound` with a constant error, independently of and
without modifying the directory state. -/
theorem claimC3_malformed_id (s : String) (h : idPatternMatch s = false)
    (ttl now : Int) :
    ∀ dir : Option Dir,
      load_dataset s dir ttl now = (.error (.notFound "Invalid dataset identifier."), dir)
      ∧ load_result_csv s dir ttl now = (.error (.notFound "Invalid result identifier."), dir) := by
  intro dir
  constructor <;> simp [load_dataset, load_result_csv, h]

/-- Claim C3 witness: a concrete malformed id is rejected by both loads without
touching a nonempty directory. -/
theorem claimC3_malformed_id_witness :
    load_dataset "zz" (some [("zz.pkl", ⟨[1], 0⟩)]) 100 0
      = (.error (.notFound "Invalid dataset identifier."), some [("zz.pkl", ⟨[1], 0⟩)])
    ∧ load_result_csv "zz" (some [("zz.pkl", ⟨[1], 0⟩)]) 100 0
      = (.error (.notFound "Invalid result identifier."), some [("zz.pkl", ⟨[1], 0⟩)]) :=
  claimC3_malformed_id "zz" (by decide) 100 0 (some [("zz.pkl", ⟨[1], 0⟩)])

theorem expiredNames_nil_of (ttl now : Int) (files : List (String × FSFile))
    (h : ∀ p ∈ files, _is_expired p.2 ttl now = false) :
    expiredNames ttl now files = [] := by
  induction files with
  | nil => rfl
  | cons p rest ih =>
    obtain ⟨name, f⟩ := p
    have h1 := h (name, f) (List.mem_cons_self _ _)
    simp only [expiredNames, h1, if_neg Bool.false_ne_true]
    exact ih fun q hq => h q (List.mem_cons_of_mem _ hq)

theorem expiredTargets_nil_of (ttl now : Int) (files : List (String × FSFile))
    (h : ∀ p ∈ files, _is_expired p.2 ttl now = false) :
    expiredTargets ttl now files = [] := by
  induction files with
  | nil => rfl
  | cons p rest ih =>
    obtain ⟨name, f⟩ := p
    have h1 := h (name, f) (List.mem_cons_self _ _)
    simp only [expiredTargets, h1, if_neg Bool.false_ne_true]
    exact ih fun q hq => h q (List.mem_cons_of_mem _ hq)

/-- Claim C4: one sweep pass examines exactly the payload-suffix files directly
under the directory: it returns the number of expired payload files, every
deleted name is an expired payload or the metadata sidecar of an expired
payload (of the same stem), every other file — fresh payloads included — is
left untouched, and absent names stay absent. -/
theorem claimC4_sweep_postcondition (d : Dir) (ttl now : Int)
    (hnd : (d.map Prod.fst).Nodup) :
    ((cleanup_expired (some d) ttl now).1
      = (d.filter (fun p => hasSuffix p.1 RESULT_FILE_SUFFIX && _is_expired p.2 ttl now)).length)
    ∧ (∀ m fm, lookupFile d m = some fm →
        (hasSuffix m RESULT_FILE_SUFFIX && _is_expired fm ttl now) = true →
        lookupFile (((cleanup_expired (some d) ttl now).2).getD []) m = none)
    ∧ (∀ m fm, lookupFile d m = some fm →
        (hasSuffix m RESULT_FILE_SUFFIX && _is_expired fm ttl now) = false →
        lookupFile (((cleanup_expired (some d) ttl now).2).getD []) m = some fm)
    ∧ (∀ m, lookupFile d m = none →
        lookupFile (((cleanup_expired (some d) ttl now).2).getD []) m = none)
    ∧ ((cleanup_expired_datasets (some d) ttl now).1
      = (d.filter (fun p => hasSuffix p.1 _DATASET_FILE_SUFFIX && _is_expired p.2 ttl now)).length)
    ∧ (∀ m, datasetSweepDeletes d ttl now m →
        lookupFile (((cleanup_expired_datasets (some d) ttl now).2).getD []) m = none)
    ∧ (∀ m fm, lookupFile d m = some fm →
        ¬ datasetSweepDeletes d ttl now m →
        lookupFile (((cleanup_expired_datasets (some d) ttl now).2).getD []) m = some fm)
    ∧ (∀ m, lookupFile d m = none →
        lookupFile (((cleanup_expired_datasets (some d) ttl now).2).getD []) m = none) := by
  rw [cleanup_expired_eq, cleanup_expired_datasets_eq]
  simp only [Option.getD_some]
  refine ⟨expiredNames_glob_length d _ ttl now, ?_, ?_, ?_,
    expiredNames_glob_length d _ ttl now, ?_, ?_, ?_⟩
  · intro m fm hl hdel
    rw [Bool.and_eq_true] at hdel
    rw [lookupFile_eraseMany, if_pos]
    exact (mem_expiredNames ttl now _ m).mpr
      ⟨fm, (mem_globSuffix d _ _).mpr ⟨mem_of_lookupFile d m fm hl, hdel.1⟩, hdel.2⟩
  · intro m fm hl hkeep
    rw [lookupFile_eraseMany, if_neg, hl]
    intro hin
    obtain ⟨f', hg, hexp⟩ := (mem_expiredNames ttl now _ m).mp hin
    obtain ⟨hmem, hsfx⟩ := (mem_globSuffix d _ _).mp hg
    have : lookupFile d m = some f' := lookupFile_of_mem_nodup d m f' hnd hmem
    rw [hl] at this
    obtain rfl : fm = f' := by simpa using this
    rw [hsfx, hexp] at hkeep
    simp at hkeep
  · intro m hl
    rw [lookupFile_eraseMany]
    by_cases hin : m ∈ expiredNames ttl now (globSuffix d RESULT_FILE_SUFFIX) <;>
      simp [hin, hl]
  · intro m hdel
    rw [lookupFile_eraseMany, if_pos]
    rcases hdel with ⟨f, hl, hsfx, hexp⟩ | ⟨q, hq, hsfx, hexp, hm⟩
    · exact (mem_expiredTargets ttl now _ m).mpr
        (Or.inl ⟨f, (mem_globSuffix d _ _).mpr ⟨mem_of_lookupFile d m f hl, hsfx⟩, hexp⟩)
    · exact (mem_expiredTargets ttl now _ m).mpr
        (Or.inr ⟨q, (mem_globSuffix d _ _).mpr ⟨hq, hsfx⟩, hexp, hm⟩)
  · intro m fm hl hkeep
    rw [lookupFile_eraseMany, if_neg, hl]
    intro hin
    apply hkeep
    rcases (mem_expiredTargets ttl now _ m).mp hin with ⟨f', hg, hexp⟩ | ⟨q, hq, hexp, hm⟩
    · obtain ⟨hmem, hsfx⟩ := (mem_globSuffix d _ _).mp hg
      exact Or.inl ⟨f', lookupFile_of_mem_nodup d m f' hnd hmem, hsfx, hexp⟩
    · obtain ⟨hmem, hsfx⟩ := (mem_globSuffix d _ _).mp hq
      exact Or.inr ⟨q, hmem, hsfx, hexp, hm⟩
  · intro m hl
    rw [lookupFile_eraseMany]
    by_cases hin : m ∈ expiredTargets ttl now (globSuffix d _DATASET_FILE_SUFFIX) <;>
      simp [hin, hl]

/-- Claim C4 witness: on a concrete directory holding an expired CSV payload, a
fresh CSV payload, an unrelated file, and an expired pickle payload with its
sidecar, the sweeps delete exactly the expired payloads (plus sidecar) and
report the right counts. -/
theorem claimC4_sweep_postcondition_witness :
    (cleanup_expired (some [("aa.csv", ⟨[1], 0⟩), ("bb.csv", ⟨[2], 95⟩),
        ("cc.txt", ⟨[3], 0⟩), ("dd.pkl", ⟨[4], 0⟩), ("dd.json", ⟨[5], 0⟩)]) 10 100).1 = 1
    ∧ lookupFile (((cleanup_expired (some [("aa.csv", ⟨[1], 0⟩), ("bb.csv", ⟨[2], 95⟩),
        ("cc.txt", ⟨[3], 0⟩), ("dd.pkl", ⟨[4], 0⟩), ("dd.json", ⟨[5], 0⟩)]) 10 100).2).getD [])
        "aa.csv" = none
    ∧ lookupFile (((cleanup_expired (some [("aa.csv", ⟨[1], 0⟩), ("bb.csv", ⟨[2], 95⟩),
        ("cc.txt", ⟨[3], 0⟩), ("dd.pkl", ⟨[4], 0⟩), ("dd.json", ⟨[5], 0⟩)]) 10 100).2).getD [])
        "bb.csv" = some ⟨[2], 95⟩
    ∧ (cleanup_expired_datasets (some [("aa.csv", ⟨[1], 0⟩), ("bb.csv", ⟨[2], 95⟩),
        ("cc.txt", ⟨[3], 0⟩), ("dd.pkl", ⟨[4], 0⟩), ("dd.json", ⟨[5], 0⟩)]) 10 100).1 = 1
    ∧ lookupFile (((cleanup_expired_datasets (some [("aa.csv", ⟨[1], 0⟩), ("bb.csv", ⟨[2], 95⟩),
        ("cc.txt", ⟨[3], 0⟩), ("dd.pkl", ⟨[4], 0⟩), ("dd.json", ⟨[5], 0⟩)]) 10 100).2).getD [])
        "dd.json" = none := by
  have h := claimC4_sweep_postcondition [("aa.csv", ⟨[1], 0⟩), ("bb.csv", ⟨[2], 95⟩),
    ("cc.txt", ⟨[3], 0⟩), ("dd.pkl", ⟨[4], 0⟩), ("dd.json", ⟨[5], 0⟩)] 10 100 (by decide)
  refine ⟨?_, ?_, ?_, ?_, ?_⟩
  · rw [h.1]
    decide
  · exact h.2.1 "aa.csv" ⟨[1], 0⟩ (by decide) (by decide)
  · exact h.2.2.1 "bb.csv" ⟨[2], 95⟩ (by decide) (by decide)
  · rw [h.2.2.2.2.1]
    decide
  · exact h.2.2.2.2.2.1 "dd.json"
      (Or.inr ⟨("dd.pkl", ⟨[4], 0⟩), by decide, by decide, by decide, by decide⟩)

/-- Claim C5: a second sweep run immediately after a first one (same directory,
ttl and time) deletes nothing and returns 0, for both stores. -/
theorem claimC5_sweep_idempotent (d : Dir) (ttl now : Int) :
    cleanup_expired ((cleanup_expired (some d) ttl now).2) ttl now
      = (0, (cleanup_expired (some d) ttl now).2)
    ∧ cleanup_expired_datasets ((cleanup_expired_datasets (some d) ttl now).2) ttl now
      = (0, (cleanup_expired_datasets (some d) ttl now).2) := by
  constructor
  · rw [cleanup_expired_eq]
    set ns := expiredNames ttl now (globSuffix d RESULT_FILE_SUFFIX) with hns
    have hfresh : ∀ p ∈ globSuffix (eraseMany d ns) RESULT_FILE_SUFFIX,
        _is_expired p.2 ttl now = false := by
      intro p hp
      obtain ⟨hmem, hsfx⟩ := (mem_globSuffix _ _ _).mp hp
      obtain ⟨hmemd, hnot⟩ := (mem_eraseMany ns d p).mp hmem
      by_contra hexp
      rw [Bool.not_eq_false] at hexp
      exact hnot ((mem_expiredNames ttl now _ p.1).mpr
        ⟨p.2, (mem_globSuffix d _ _).mpr ⟨hmemd, hsfx⟩, hexp⟩)
    have hnil := expiredNames_nil_of ttl now _ hfresh
    rw [cleanup_expired_eq, hnil]
    simp [eraseMany_nil]
  · rw [cleanup_expired_datasets_eq]
    set ts := expiredTargets ttl now (globSuffix d _DATASET_FILE_SUFFIX) with hts
    have hfresh : ∀ p ∈ globSuffix (eraseMany d ts) _DATASET_FILE_SUFFIX,
        _is_expired p.2 ttl now = false := by
      intro p hp
      obtain ⟨hmem, hsfx⟩ := (mem_globSuffix _ _ _).mp hp
      obtain ⟨hmemd, hnot⟩ := (mem_eraseMany ts d p).mp hmem
      by_contra hexp
      rw [Bool.not_eq_false] at hexp
      exact hnot ((mem_expiredTargets ttl now _ p.1).mpr
        (Or.inl ⟨p.2, (mem_globSuffix d _ _).mpr ⟨hmemd, hsfx⟩, hexp⟩))
    have hnamesnil := expiredNames_nil_of ttl now _ hfresh
    have htargetsnil := expiredTargets_nil_of ttl now _ hfresh
    rw [cleanup_expired_datasets_eq, hnamesnil, htargetsnil]
    simp [eraseMany_nil]

/-- Claim C5 witness: a second run on the directory left by a first sweep of a
concrete directory deletes 0 files for both stores. -/
theorem claimC5_sweep_idempotent_witness :
    cleanup_expired ((cleanup_expired
        (some [("aa.csv", ⟨[1], 0⟩), ("bb.csv", ⟨[2], 95⟩)]) 10 100).2) 10 100
      = (0, (cleanup_expired (some [("aa.csv", ⟨[1], 0⟩), ("bb.csv", ⟨[2], 95⟩)]) 10 100).2)
    ∧ cleanup_expired_datasets ((cleanup_expired_datasets
        (some [("dd.pkl", ⟨[4], 0⟩), ("dd.json", ⟨[5], 0⟩)]) 10 100).2) 10 100
      = (0, (cleanup_expired_datasets
          (some [("dd.pkl", ⟨[4], 0⟩), ("dd.json", ⟨[5], 0⟩)]) 10 100).2) :=
  ⟨(claimC5_sweep_idempotent [("aa.csv", ⟨[1], 0⟩), ("bb.csv", ⟨[2], 95⟩)] 10 100).1,
   (claimC5_sweep_idempotent [("dd.pkl", ⟨[4], 0⟩), ("dd.json", ⟨[5], 0⟩)] 10 100).2⟩

/-- Claim C10: a metadata sidecar whose payload file is absent survives the
dataset sweep unchanged, for every ttl and time — the sweep only enumerates
payload-suffix files, so orphan metadata is never deleted. -/
theorem claimC10_orphan_metadata_survives (d : Dir) (ttl now : Int)
    (dataset_id : String) (f : FSFile)
    (hid : is32LowerHex dataset_id = true)
    (hmeta : lookupFile d (_meta_path dataset_id) = some f)
    (hnopayload : lookupFile d (_dataset_path dataset_id) = none) :
    lookupFile (((cleanup_expired_datasets (some d) ttl now).2).getD [])
        (_meta_path dataset_id) = some f := by
  rw [cleanup_expired_datasets_eq]
  simp only [Option.getD_some]
  rw [lookupFile_eraseMany, if_neg, hmeta]
  intro hin
  rcases (mem_expiredTargets ttl now _ _).mp hin with ⟨g, hg, hge⟩ | ⟨q, hq, hqe, hqm⟩
  · have hsfx := ((mem_globSuffix d _ _).mp hg).2
    have hj : hasSuffix (_meta_path dataset_id) _DATASET_META_SUFFIX = true := by
      rw [_meta_path]
      exact hasSuffix_append _ _
    rw [not_hasSuffix_pkl_of_json _ hj] at hsfx
    exact Bool.false_ne_true hsfx
  · obtain ⟨hmem, hsfx⟩ := (mem_globSuffix d _ _).mp hq
    have hqname : q.1 = _dataset_path dataset_id :=
      stem_eq_of_meta q.1 dataset_id hsfx hqm.symm hid
    have hne := lookupFile_isSome_of_mem d q.1 q.2 hmem
    rw [hqname] at hne
    exact hne hnopayload

/-- Claim C10 witness: a concrete orphan sidecar far older than the ttl is still
present after a sweep. -/
theorem claimC10_orphan_metadata_survives_witness :
    lookupFile (((cleanup_expired_datasets
        (some [("aaaaaaaaaaaaaaaaaaaaaaaaaaaaaaaa.json", ⟨[5], 0⟩)]) 10 1000000).2).getD [])
      "aaaaaaaaaaaaaaaaaaaaaaaaaaaaaaaa.json" = some ⟨[5], 0⟩ :=
  claimC10_orphan_metadata_survives
    [("aaaaaaaaaaaaaaaaaaaaaaaaaaaaaaaa.json", ⟨[5], 0⟩)] 10 1000000
    "aaaaaaaaaaaaaaaaaaaaaaaaaaaaaaaa" ⟨[5], 0⟩ (by decide) (by decide) (by decide)

end MinexPyGui
